import Mathlib

/-!
Shallow embedding of the `igc-parser` TypeScript library (`src/parser.ts`)
and proofs about the claims of its specification.

Modelling conventions, used consistently below:

* JavaScript `Date` values are modelled as `Int`: the number of milliseconds
  since the Unix epoch.  The runtime's timezone is modelled as UTC, so
  `setDate(getDate() + 1)` adds exactly one day (86 400 000 ms) and
  `toISOString().slice(0, 10)` truncates an instant to the midnight that
  starts its UTC calendar day.  `Math`-style floor division is `Int./`
  (Euclidean division), which agrees with floor division whenever the
  divisor is positive — every divisor below (86 400 000, 12, 400, ...) is.
* JavaScript numbers produced by coordinate arithmetic are modelled as `ℚ`.
  The source computes with IEEE doubles; every claim about coordinates is
  stated with an explicit tolerance (1e-5), far wider than the double
  rounding error, so exact rational arithmetic is the faithful reading.
* `null` / `undefined` record fields are `Option`s.  The one place where
  the source can store the number `NaN` in a field (`parseInt` applied to
  an undefined regex capture) is modelled as `Option (Option Int)`:
  `none` = field never assigned, `some none` = field assigned `NaN`,
  `some (some n)` = field assigned the integer `n`.
* `throw new Error msg` is `Except.error msg`.
* Regular-expression matching against the fixed-width IGC layouts is
  modelled by hand-rolled total matchers over `String.data` (`List Char`),
  reproducing the exact group structure of the source regexes.
-/

/-- Decimal value of a digit string, `parseInt(s, 10)` restricted to the
all-digit strings produced by the fixed-width matchers below. -/
def strToNat (cs : List Char) : Nat :=
  cs.foldl (fun a c => a * 10 + (c.toNat - 48)) 0

/-- Model of `parseInt` on an altitude group of the fix-record regex: either
`-dddd` (a `-` followed by four digits) or `ddddd` (five digits). -/
def parseIntStr (s : String) : Int :=
  match s.data with
  | '-' :: rest => -(strToNat rest : Int)
  | cs => (strToNat cs : Int)

/-- JavaScript `parseInt` on free text: skip leading whitespace, optional
sign, then the leading digit run; `none` models `NaN` (no digits found).
(The hexadecimal `0x` form never occurs in IGC header text.) -/
def jsParseInt (cs : List Char) : Option Int :=
  let cs := cs.dropWhile (fun c => c = ' ' ∨ c = '\t' ∨ c = '\n' ∨ c = '\r')
  match cs with
  | '-' :: rest =>
    let ds := rest.takeWhile Char.isDigit
    if ds = [] then none else some (-(strToNat ds : Int))
  | '+' :: rest =>
    let ds := rest.takeWhile Char.isDigit
    if ds = [] then none else some (strToNat ds : Int)
  | rest =>
    let ds := rest.takeWhile Char.isDigit
    if ds = [] then none else some (strToNat ds : Int)

/-- Milliseconds in an hour, the day-rollover threshold of the source
(`1000 * 60 * 60`). -/
def msPerHour : Int := 3600000

/-- Milliseconds in a UTC day. -/
def msPerDay : Int := 86400000

/-- UTC calendar day of an instant (days since the epoch); `Int` division
is floor division here because `msPerDay > 0`. -/
def dayOfMs (t : Int) : Int := t / msPerDay

/-- Type `IGCHeader` of `src/parser.ts`: all fields optional.  `date` is an
instant (ms); `fixAccuracy` and `gpsDatum` use the `NaN` encoding described
in the header comment. -/
structure IGCHeader where
  date : Option Int := none
  fixAccuracy : Option (Option Int) := none
  pilot : Option String := none
  copilot : Option String := none
  gliderModel : Option String := none
  gliderID : Option String := none
  gpsDatum : Option (Option Int) := none
  firmwareVersion : Option String := none
  hardwareVersion : Option String := none
  flightRecorderType : Option String := none
  gpsType : Option String := none
  pressureSensorType : Option String := none
  competitionID : Option String := none
  competitionClass : Option String := none
  security : Option String := none

/-- Type `IGCFix` of `src/parser.ts`.  `parseFix` never assigns `fixAccuracy`,
so it keeps its default. -/
structure IGCFix where
  timestamp : Int
  lat : ℚ
  long : ℚ
  fixAccuracy : Option Int := none
  pressureAltitude : Option Int
  gpsAltitude : Option Int
  activity : Option String
  phase : Option String

/-- The capture groups of the fix-record regex
`^B(\d{2})(\d{2})(\d{2})(\d{2})(\d{2})(\d{3})([NS])(\d{3})(\d{2})(\d{3})([EW])([AV])(-\d{4}|\d{5})(-\d{4}|\d{5})`. -/
structure BGroups where
  hh : String
  mi : String
  ss : String
  latDD : String
  latMM : String
  latMMM : String
  latNS : String
  lonDDD : String
  lonMM : String
  lonMMM : String
  lonEW : String
  flag : String
  pAlt : String
  gAlt : String

/-- Take exactly `n` decimal digits from the front of a character list. -/
def takeDigits : Nat → List Char → Option (List Char × List Char)
  | 0, cs => some ([], cs)
  | _ + 1, [] => none
  | n + 1, c :: cs =>
    if c.isDigit then
      match takeDigits n cs with
      | some (ds, rest) => some (c :: ds, rest)
      | none => none
    else none

/-- Take one character out of a two-character class (`[NS]`, `[EW]`, `[AV]`). -/
def takeOneOf (a b : Char) : List Char → Option (Char × List Char)
  | [] => none
  | c :: cs => if c = a ∨ c = b then some (c, cs) else none

/-- Take an altitude group `(-\d{4}|\d{5})`.  The alternatives are
disjoint (`-` is not a digit), so first-match order is irrelevant. -/
def takeAltitude : List Char → Option (List Char × List Char)
  | '-' :: cs =>
    match takeDigits 4 cs with
    | some (ds, rest) => some ('-' :: ds, rest)
    | none => none
  | cs => takeDigits 5 cs

/-- Model of `line.match(bRegex)` in `parseFix`: anchored at the start (the regex
begins with `^`) and open at the end (no `$`), yielding the fourteen
capture groups on success. -/
def matchB (line : String) : Option BGroups :=
  match line.data with
  | 'B' :: r0 =>
    match takeDigits 2 r0 with
    | none => none
    | some (hh, r1) =>
    match takeDigits 2 r1 with
    | none => none
    | some (mi, r2) =>
    match takeDigits 2 r2 with
    | none => none
    | some (ss, r3) =>
    match takeDigits 2 r3 with
    | none => none
    | some (laD, r4) =>
    match takeDigits 2 r4 with
    | none => none
    | some (laM, r5) =>
    match takeDigits 3 r5 with
    | none => none
    | some (laF, r6) =>
    match takeOneOf 'N' 'S' r6 with
    | none => none
    | some (ns, r7) =>
    match takeDigits 3 r7 with
    | none => none
    | some (loD, r8) =>
    match takeDigits 2 r8 with
    | none => none
    | some (loM, r9) =>
    match takeDigits 3 r9 with
    | none => none
    | some (loF, r10) =>
    match takeOneOf 'E' 'W' r10 with
    | none => none
    | some (ew, r11) =>
    match takeOneOf 'A' 'V' r11 with
    | none => none
    | some (av, r12) =>
    match takeAltitude r12 with
    | none => none
    | some (pa, r13) =>
    match takeAltitude r13 with
    | none => none
    | some (ga, _) =>
      some ⟨⟨hh⟩, ⟨mi⟩, ⟨ss⟩, ⟨laD⟩, ⟨laM⟩, ⟨laF⟩, ⟨[ns]⟩,
            ⟨loD⟩, ⟨loM⟩, ⟨loF⟩, ⟨[ew]⟩, ⟨[av]⟩, ⟨pa⟩, ⟨ga⟩⟩
  | _ => none

/-- Model of `parseLatitude` of `src/parser.ts`:
`parseInt(dd, 10) + parseFloat(mm + "." + mmm + "0000") / 60`, negated for
the southern hemisphere.  The `"0000"` padding appended by the source does
not change the value: `parseFloat(mm + "." + mmm)` equals
`mm + mmm / 10 ^ mmm.length` for digit strings, and trailing zeros only
extend the denominator and numerator by matching powers of ten. -/
def parseLatitude (dd mm mmm ns : String) : ℚ :=
  let degrees : ℚ :=
    (strToNat dd.data : ℚ) +
      ((strToNat mm.data : ℚ) + (strToNat mmm.data : ℚ) / (10 : ℚ) ^ mmm.data.length) / 60
  if ns = "S" then -degrees else degrees

/-- Model of `parseLongitude` of `src/parser.ts`: same shape, three-digit degrees,
`"W"` negates. -/
def parseLongitude (ddd mm mmm ew : String) : ℚ :=
  let degrees : ℚ :=
    (strToNat ddd.data : ℚ) +
      ((strToNat mm.data : ℚ) + (strToNat mmm.data : ℚ) / (10 : ℚ) ^ mmm.data.length) / 60
  if ew = "W" then -degrees else degrees

/-- Model of `checkForDayRollover` of `src/parser.ts`:
`currTime.getTime() < prevTime.getTime() - 1000 * 60 * 60`. -/
def checkForDayRollover (prevTime currTime : Int) : Bool :=
  decide (currTime < prevTime - msPerHour)

/-- The fix record built by `parseFix` (lines 164–197 of `src/parser.ts`)
once the layout matched and the validity flag is `"A"`:
`date.toISOString().slice(0, 10)` truncates the reference instant to its
UTC midnight; `setUTCHours(h, m, s)` then lands on
`midnight + ((h * 60 + m) * 60 + s) * 1000` (JavaScript does not
range-check `h`, `m`, `s`; overflow rolls into later days, exactly as this
formula does).  A rollover against the previous timestamp adds one
calendar day via `setDate(getDate() + 1)`. -/
def mkFixFromGroups (g : BGroups) (activity phase : Option String) (date : Int)
    (prevTimestamp : Option Int) : IGCFix :=
  let refMidnight : Int := date / msPerDay * msPerDay
  let timestamp0 : Int := refMidnight +
    ((strToNat g.hh.data * 60 + strToNat g.mi.data) * 60 + strToNat g.ss.data) * 1000
  let isNextDay : Bool :=
    match prevTimestamp with
    | some p => checkForDayRollover p timestamp0
    | none => false
  { timestamp := if isNextDay then timestamp0 + msPerDay else timestamp0
    lat := parseLatitude g.latDD g.latMM g.latMMM g.latNS
    long := parseLongitude g.lonDDD g.lonMM g.lonMMM g.lonEW
    activity := activity
    phase := phase
    pressureAltitude :=
      if g.pAlt = "00000" then none else some (parseIntStr g.pAlt)
    gpsAltitude :=
      if g.gAlt = "00000" then none else some (parseIntStr g.gAlt) }

/-- Model of `parseFix` of `src/parser.ts`: structural mismatch throws
`"Invalid B record"`; a void (`"V"`) validity flag returns `null`;
otherwise the fix of `mkFixFromGroups`. -/
def parseFix (line : String) (activity phase : Option String) (date : Int)
    (prevTimestamp : Option Int) : Except String (Option IGCFix) :=
  match matchB line with
  | none => Except.error "Invalid B record"
  | some g =>
    if g.flag ≠ "A" then Except.ok none
    else Except.ok (some (mkFixFromGroups g activity phase date prevTimestamp))

/-- Days since 1970-01-01 of the civil date `(y, m, d)` with `m ∈ [1, 12]`
and arbitrary day offset `d` (Howard Hinnant's `days_from_civil`, the
algorithm behind `Date.UTC`'s `MakeDay`).  All divisions have positive
divisors, so `Int./` is the floor division the algorithm requires. -/
def daysFromCivil (y m d : Int) : Int :=
  let y2 : Int := if m ≤ 2 then y - 1 else y
  let era : Int := y2 / 400
  let yoe : Int := y2 - era * 400
  let mp : Int := if 2 < m then m - 3 else m + 9
  let doy : Int := (153 * mp + 2) / 5 + d - 1
  let doe : Int := yoe * 365 + yoe / 4 - yoe / 100 + doy
  era * 146097 + doe - 719468

/-- Value of `Date.UTC(year, monthIndex, day)` in milliseconds.  JavaScript first
normalizes the month (`ym = year + floor(monthIndex / 12)`,
`mn = monthIndex mod 12`) and then offsets by whole days, which
`daysFromCivil` absorbs linearly in `d`.  (The legacy `0 ≤ year ≤ 99 ↦
1900 + year` rewrite of `Date.UTC` never fires here: the parser always
passes a year ≥ 1900.) -/
def dateUTCms (year monthIndex day : Int) : Int :=
  let tm : Int := year * 12 + monthIndex
  daysFromCivil (tm / 12) (Int.emod tm 12 + 1) day * msPerDay

/-- The date-group search of the `HFDTE` branch:
`line.match(/(\d\d)(\d\d)(\d{2,3})/)` — the first position carrying six
consecutive digits wins, and the greedy third group takes a seventh digit
when one follows. -/
def findDate : List Char → Option (List Char × List Char × List Char)
  | [] => none
  | c :: rest =>
    let cs := c :: rest
    if ((cs.take 6).length = 6 ∧ (cs.take 6).all Char.isDigit) then
      let yrest := cs.drop 4
      let y :=
        match yrest.drop 2 with
        | c2 :: _ => if c2.isDigit then yrest.take 3 else yrest.take 2
        | [] => yrest.take 2
      some (cs.take 2, (cs.drop 2).take 2, y)
    else findDate rest

/-- Lines 60–67 of `src/parser.ts`: century `"20"` for a two-digit year
group, `"19"` otherwise, prepended textually before `parseInt`; then
`Date.UTC(year, month - 1, day)`.  The groups are all-digit by
construction of `findDate`, so `parseInt` is plain decimal. -/
def hfdteDate (d m y : List Char) : Int :=
  let century : List Char := if y.length = 2 then "20".data else "19".data
  dateUTCms (strToNat (century ++ y) : Int) ((strToNat m : Int) - 1) (strToNat d : Int)

/-- Group 1 of `/(?:.{0,}?:(.*)|(.*))$/`: the text after the *first* colon
when the line has one (the lazy `.{0,}?` stops at the earliest colon),
`none` otherwise (then only group 2, the whole line, matched — and the
source ignores group 2 because `matches[1]` is `undefined`). -/
def afterFirstColon : List Char → Option (List Char)
  | [] => none
  | ':' :: rest => some rest
  | _ :: rest => afterFirstColon rest

/-- The `switch (key)` of `parseMetadata`'s default branch. -/
def setHeaderField (md : IGCHeader) (key : List Char) (v : String) : IGCHeader :=
  if key = "HFPLT".data then { md with pilot := some v }
  else if key = "HFCM2".data then { md with copilot := some v }
  else if key = "HFGTY".data then { md with gliderModel := some v }
  else if key = "HFGID".data then { md with gliderID := some v }
  else if key = "HFDTM".data then { md with gpsDatum := some (jsParseInt v.data) }
  else if key = "HFRFW".data then { md with firmwareVersion := some v }
  else if key = "HFRHW".data then { md with hardwareVersion := some v }
  else if key = "HFFTY".data then { md with flightRecorderType := some v }
  else if key = "HFGPS".data then { md with gpsType := some v }
  else if key = "HFPRS".data then { md with pressureSensorType := some v }
  else if key = "HFCID".data then { md with competitionID := some v }
  else if key = "HFCCL".data then { md with competitionClass := some v }
  else md

/-- One iteration of `parseMetadata`'s line loop.  The `HFFXA` branch of
the source matches `/\d*/`, which always succeeds with the empty match at
position 0 and has *no capture group*; `recordData[1]` is therefore
`undefined` and `parseInt(undefined)` is `NaN` — modelled as `some none`
(field assigned, value `NaN`). -/
def parseMetaLine (md : IGCHeader) (line : List Char) : IGCHeader :=
  if line.head? = some 'H' ∨ line.head? = some 'A' then
    let key := line.take 5
    if key = "HFDTE".data then
      match findDate line with
      | some (d, m, y) => { md with date := some (hfdteDate d m y) }
      | none => md
    else if key = "HFFXA".data then
      { md with fixAccuracy := some none }
    else
      match afterFirstColon line with
      | some t => if t ≠ [] then setHeaderField md key (String.mk t) else md
      | none => md
  else md

/-- Model of `parseMetadata` of `src/parser.ts` over already-split lines. -/
def parseMetadata (lines : List (List Char)) : IGCHeader :=
  lines.foldl parseMetaLine {}

/-- Type `GeoJSONFeature` of `src/parser.ts`.  The constant tags
`type: "Feature"` and `geometry.type: "LineString"` are kept as fields;
`coordinates` entries are `(long, lat, altitude)`; `timestamps` holds the
instants whose `toISOString()` the source stores (the ISO rendering is a
bijection on instants, so the instant itself is the faithful model). -/
structure GeoJSONFeature where
  featureType : String := "Feature"
  geometryType : String := "LineString"
  coordinates : List (ℚ × ℚ × ℚ)
  timestamps : List Int
  phases : List (Option String)
  activities : List (Option String)
  verticalSpeeds : List ℚ

/-- Model of `preferredAltitude` of `src/parser.ts`:
`fix.pressureAltitude ?? fix.gpsAltitude ?? 0` (`??` tests only
`null`/`undefined`, so a present `0` or negative altitude is kept). -/
def preferredAltitude (fix : IGCFix) : Int :=
  (fix.pressureAltitude.getD (fix.gpsAltitude.getD 0))

/-- Projected altitude of one fix: `preferredAltitude(point) + altitudeOffset`. -/
def projAlt (off : ℚ) (fix : IGCFix) : ℚ :=
  (preferredAltitude fix : ℚ) + off

/-- The running vertical-speed computation of the `convertToGeoJSON` loop:
each entry is the current projected altitude minus the previous one
(`coordinates[i - 1][2]`), threaded left to right. -/
def vsList (prevAlt : ℚ) : List ℚ → List ℚ
  | [] => []
  | a :: rest => (a - prevAlt) :: vsList a rest

/-- Model of `convertToGeoJSON` of `src/parser.ts`.  The imperative loop pushes, for
index `i`, the coordinate triple, timestamp, phase, activity and vertical
speed of `trackPoints[i]`; the first vertical speed compares the first
altitude with itself, hence is `0`. -/
def convertToGeoJSON (trackPoints : List IGCFix) (altitudeOffset : ℚ) :
    Except String GeoJSONFeature :=
  match trackPoints with
  | [] => Except.error "No trackPoints provided"
  | f :: rest =>
    Except.ok
      { coordinates := (f :: rest).map (fun p => (p.long, p.lat, projAlt altitudeOffset p))
        timestamps := (f :: rest).map (fun p => p.timestamp)
        phases := (f :: rest).map (fun p => p.phase)
        activities := (f :: rest).map (fun p => p.activity)
        verticalSpeeds := 0 :: vsList (projAlt altitudeOffset f) (rest.map (projAlt altitudeOffset)) }

/-- Type `IGCData` of `src/parser.ts`. -/
structure IGCData where
  metadata : IGCHeader
  trackPoints : List IGCFix
  geoJSON : GeoJSONFeature

/-- Substring test (`String.prototype.includes`) on character lists. -/
def startsWithL : List Char → List Char → Bool
  | [], _ => true
  | _ :: _, [] => false
  | a :: as, b :: bs => a = b && startsWithL as bs

/-- Test `hay.includes(needle)`. -/
def containsSubL (needle : List Char) : List Char → Bool
  | [] => startsWithL needle []
  | c :: rest => startsWithL needle (c :: rest) || containsSubL needle rest

/-- Split on `\n` (`"".split` keeps one empty piece). -/
def splitNL : List Char → List (List Char)
  | [] => [[]]
  | '\n' :: rest => [] :: splitNL rest
  | c :: rest =>
    match splitNL rest with
    | [] => [[c]]
    | l :: ls => (c :: l) :: ls

/-- Drop one trailing `'\r'`. -/
def stripCR (cs : List Char) : List Char :=
  match cs.reverse with
  | '\r' :: t => t.reverse
  | _ => cs

/-- Strip the `\r` of a consumed `\r\n` from every piece except the last
(the last piece is not followed by a `\n`). -/
def stripCRInit : List (List Char) → List (List Char)
  | [] => []
  | [x] => [x]
  | x :: xs => stripCR x :: stripCRInit xs

/-- Model of `igcString.split(/\r?\n/)`: split on `\n`, and the optional `\r` is
consumed only when a `\n` follows — i.e. on every piece except the last. -/
def splitLinesL (cs : List Char) : List (List Char) :=
  stripCRInit (splitNL cs)

/-- The fix-collection loop of `igcParser` (lines 264–284 of
`src/parser.ts`), with the mutable locals threaded explicitly:
`md` carries `metadata` (mutated only to record `security`), `lastActivity`
and `lastPhase` are the running L-record markers, `acc` the `trackPoints`
array.  `refDate` is `metadata.date ?? new Date()` — constant across the
loop because `metadata.date` is fixed before it starts (each `new Date()`
call is modelled as the same instant `now`).  A `G` line records itself as
`metadata.security` and `break`s; a thrown `parseFix` error propagates. -/
def scanLines (md : IGCHeader) (refDate : Int) (lastActivity lastPhase : Option String)
    (acc : List IGCFix) : List (List Char) → Except String (IGCHeader × List IGCFix)
  | [] => Except.ok (md, acc)
  | line :: rest =>
    if line.head? = some 'H' then scanLines md refDate lastActivity lastPhase acc rest
    else if line.head? = some 'G' then
      Except.ok ({ md with security := some (String.mk line) }, acc)
    else
      let isL := line.head? = some 'L'
      let hasAct := containsSubL "ACTIVITY".data line
      let lastActivity := if isL ∧ hasAct then some (String.mk line) else lastActivity
      let lastPhase :=
        if isL ∧ ¬hasAct ∧ containsSubL "PHASE".data line then some (String.mk line)
        else lastPhase
      if line.head? = some 'B' then
        match parseFix (String.mk line) lastActivity lastPhase refDate
            ((acc.getLast?).map (fun f => f.timestamp)) with
        | Except.error e => Except.error e
        | Except.ok none => scanLines md refDate lastActivity lastPhase acc rest
        | Except.ok (some fix) =>
          scanLines md refDate lastActivity lastPhase (acc ++ [fix]) rest
      else scanLines md refDate lastActivity lastPhase acc rest

/-- Model of `igcParser` of `src/parser.ts`, string input (the `filepath` variant
only differs in where the text comes from, which is outside the core).
JavaScript's `!igcString` is true for the empty string, so `""` trips the
input-missing guard.  `now` stands for the `new Date()` fallback used when
no `HFDTE` header was seen. -/
def igcParser (igcString : String) (now : Int) : Except String IGCData :=
  if igcString = "" then Except.error "Either filepath or igcString must be provided"
  else
    let lines := splitLinesL igcString.data
    let metadata := parseMetadata (lines.take 30)
    let refDate := metadata.date.getD now
    match scanLines metadata refDate none none [] lines with
    | Except.error e => Except.error e
    | Except.ok (md, trackPoints) =>
      match convertToGeoJSON trackPoints 0 with
      | Except.error e => Except.error e
      | Except.ok geoJSON => Except.ok { metadata := md, trackPoints := trackPoints, geoJSON := geoJSON }

/-- Time of day encoded by the hour/minute/second groups of a fix line,
in milliseconds (`setUTCHours` semantics, no range check). -/
def todMs (g : BGroups) : Int :=
  ((strToNat g.hh.data * 60 + strToNat g.mi.data) * 60 + strToNat g.ss.data) * 1000

/-- Adjacent-fix relation that the assembler actually guarantees. -/
def rolloverGap (refDate : Int) (x y : IGCFix) : Prop :=
  x.timestamp - msPerHour ≤ y.timestamp
  ∨ dayOfMs refDate * msPerDay + msPerDay ≤ y.timestamp

/-- A line that is a structurally valid fix record with validity flag
`"A"` — the only kind the assembler appends. -/
def validAFix (line : List Char) : Bool :=
  match matchB (String.mk line) with
  | some g => decide (g.flag = "A")
  | none => false

/-- The lines the assembler actually scans for fixes: everything before
the first security (`G`) line. -/
def beforeG (lines : List (List Char)) : List (List Char) :=
  lines.takeWhile (fun l => !(decide (l.head? = some 'G')))

/-- A minimal fix for witnesses. -/
def demoFix : IGCFix :=
  { timestamp := 0, lat := 0, long := 0, pressureAltitude := none, gpsAltitude := none
    activity := none, phase := none }

/-- Two-point track for the C6 witness. -/
def c6demo1 : IGCFix :=
  { timestamp := 0, lat := 46, long := 8, pressureAltitude := some 1000, gpsAltitude := some 1010
    activity := none, phase := none }

def c6demo2 : IGCFix :=
  { timestamp := 60000, lat := 46, long := 8, pressureAltitude := none, gpsAltitude := some 1040
    activity := none, phase := none }

theorem takeOneOf_flag {a b : Char} {cs : List Char} {c : Char} {rest : List Char}
    (h : takeOneOf a b cs = some (c, rest)) : c = a ∨ c = b := by
  match cs with
  | [] => exact Option.noConfusion h
  | x :: xs =>
    simp only [takeOneOf] at h
    split at h
    · rename_i hcond
      simp only [Option.some.injEq, Prod.mk.injEq] at h
      obtain ⟨hx, -⟩ := h
      subst hx
      exact hcond
    · exact Option.noConfusion h

theorem matchB_flag (line : String) (g : BGroups) (h : matchB line = some g) :
    g.flag = "A" ∨ g.flag = "V" := by
  unfold matchB at h
  repeat' first
    | exact Option.noConfusion h
    | split at h
  cases h
  have hd := takeOneOf_flag (show takeOneOf 'A' 'V' _ = some _ by assumption)
  rcases hd with h1 | h1 <;> rw [h1]
  · left; rfl
  · right; rfl

theorem parseFix_eq_of_matchB (line : String) (act ph : Option String) (d : Int)
    (prev : Option Int) (g : BGroups) (h : matchB line = some g) :
    parseFix line act ph d prev =
      if g.flag ≠ "A" then Except.ok none
      else Except.ok (some (mkFixFromGroups g act ph d prev)) := by
  simp only [parseFix, h]

/-- C4: `parseFix` signals an error exactly when the line does not match
the fix-record layout; for every matching line it returns no fix (without
error) exactly when the validity flag is `"V"`, and a populated `Fix`
exactly when the flag is `"A"`. -/
theorem c4_parseFix_shape (line : String) (act ph : Option String) (d : Int)
    (prev : Option Int) :
    ((∃ e, parseFix line act ph d prev = Except.error e) ↔ matchB line = none)
    ∧ (∀ g, matchB line = some g →
        ((parseFix line act ph d prev = Except.ok none ↔ g.flag = "V")
          ∧ ((∃ f, parseFix line act ph d prev = Except.ok (some f)) ↔ g.flag = "A"))) := by
  constructor
  · constructor
    · rintro ⟨e, he⟩
      cases hm : matchB line with
      | none => rfl
      | some g =>
        rw [parseFix_eq_of_matchB line act ph d prev g hm] at he
        split at he <;> exact Except.noConfusion he
    · intro hm
      exact ⟨"Invalid B record", by simp only [parseFix, hm]⟩
  · intro g hm
    have hd := matchB_flag line g hm
    rw [parseFix_eq_of_matchB line act ph d prev g hm]
    rcases hd with hA | hV
    · rw [hA]
      rw [if_neg (by decide : ¬ (("A" : String) ≠ "A"))]
      constructor
      · constructor
        · intro hc
          exact absurd (Except.ok.inj hc) (by simp)
        · intro hc
          exact absurd hc (by decide)
      · exact ⟨fun _ => rfl, fun _ => ⟨mkFixFromGroups g act ph d prev, rfl⟩⟩
    · rw [hV]
      rw [if_pos (by decide : ("V" : String) ≠ "A")]
      constructor
      · exact ⟨fun _ => rfl, fun _ => rfl⟩
      · constructor
        · rintro ⟨f, hf⟩
          exact absurd (Except.ok.inj hf) (by simp)
        · intro hc
          exact absurd hc (by decide)

/-- C5: for every structurally valid fix line with validity flag `"A"`,
an altitude group equal to the literal `"00000"` yields an absent altitude
in the returned fix (not the value zero); any other matching altitude
group yields its integer value. -/
theorem c5_zero_altitude_absent (line : String) (act ph : Option String) (d : Int)
    (prev : Option Int) (g : BGroups) (hm : matchB line = some g) (hA : g.flag = "A") :
    ∃ f, parseFix line act ph d prev = Except.ok (some f)
      ∧ f.pressureAltitude = (if g.pAlt = "00000" then none else some (parseIntStr g.pAlt))
      ∧ f.gpsAltitude = (if g.gAlt = "00000" then none else some (parseIntStr g.gAlt)) := by
  refine ⟨mkFixFromGroups g act ph d prev, ?_, rfl, rfl⟩
  rw [parseFix_eq_of_matchB line act ph d prev g hm, hA,
    if_neg (by decide : ¬ (("A" : String) ≠ "A"))]

theorem mkFix_timestamp_some (g : BGroups) (act ph : Option String) (d p : Int) :
    (mkFixFromGroups g act ph d (some p)).timestamp =
      if dayOfMs d * msPerDay + todMs g < p - msPerHour
      then dayOfMs d * msPerDay + todMs g + msPerDay
      else dayOfMs d * msPerDay + todMs g := by
  by_cases hc : dayOfMs d * msPerDay + todMs g < p - msPerHour
  · rw [if_pos hc]
    have hb : checkForDayRollover p (dayOfMs d * msPerDay + todMs g) = true := by
      rw [checkForDayRollover]
      exact decide_eq_true hc
    simp only [mkFixFromGroups, todMs, dayOfMs] at hb ⊢
    simp [hb]
  · rw [if_neg hc]
    have hb : checkForDayRollover p (dayOfMs d * msPerDay + todMs g) = false := by
      rw [checkForDayRollover]
      exact decide_eq_false hc
    simp only [mkFixFromGroups, todMs, dayOfMs] at hb ⊢
    simp [hb]

theorem dayOfMs_base {d t : Int} (h0 : 0 ≤ t) (h1 : t < msPerDay) :
    dayOfMs (dayOfMs d * msPerDay + t) = dayOfMs d := by
  simp only [dayOfMs, msPerDay] at h1 ⊢
  omega

theorem dayOfMs_base_add_day {d t : Int} (h0 : 0 ≤ t) (h1 : t < msPerDay) :
    dayOfMs (dayOfMs d * msPerDay + t + msPerDay) = dayOfMs d + 1 := by
  simp only [dayOfMs, msPerDay] at h1 ⊢
  omega

/-- C2 (amended): for every structurally valid fix line with validity
flag `"A"` whose hour/minute/second groups denote a real time of day
(hh ≤ 23, mm ≤ 59, ss ≤ 59), and every previous timestamp `p`: when the
instant rebuilt from the time-of-day on the reference day is more than one
hour earlier than `p`, `parseFix` returns that instant plus exactly one
day, landing on the calendar day after the reference date; otherwise it
returns the instant unchanged, on the reference date's calendar day.  The
original claim, without the time-of-day restriction, is refuted by
`c2_counterexample`. -/
theorem c2_day_rollover (line : String) (act ph : Option String) (d p : Int)
    (g : BGroups) (hm : matchB line = some g) (hA : g.flag = "A")
    (hhh : strToNat g.hh.data ≤ 23) (hmi : strToNat g.mi.data ≤ 59)
    (hss : strToNat g.ss.data ≤ 59) :
    ∃ f, parseFix line act ph d (some p) = Except.ok (some f)
      ∧ (dayOfMs d * msPerDay + todMs g < p - msPerHour →
          f.timestamp = dayOfMs d * msPerDay + todMs g + msPerDay
          ∧ dayOfMs f.timestamp = dayOfMs d + 1)
      ∧ (¬ (dayOfMs d * msPerDay + todMs g < p - msPerHour) →
          f.timestamp = dayOfMs d * msPerDay + todMs g
          ∧ dayOfMs f.timestamp = dayOfMs d) := by
  have hb0 : 0 ≤ todMs g := by
    simp only [todMs]
    positivity
  have hb1 : todMs g < msPerDay := by
    simp only [todMs, msPerDay]
    omega
  refine ⟨mkFixFromGroups g act ph d (some p), ?_, ?_, ?_⟩
  · rw [parseFix_eq_of_matchB line act ph d (some p) g hm, hA,
      if_neg (by decide : ¬ (("A" : String) ≠ "A"))]
  · intro hlt
    rw [mkFix_timestamp_some, if_pos hlt]
    exact ⟨rfl, dayOfMs_base_add_day hb0 hb1⟩
  · intro hlt
    rw [mkFix_timestamp_some, if_neg hlt]
    exact ⟨rfl, dayOfMs_base hb0 hb1⟩

theorem parseFix_gap (line : String) (act ph : Option String) (refDate : Int)
    (prev : Option Int) (f : IGCFix)
    (h : parseFix line act ph refDate prev = Except.ok (some f)) :
    (∀ pv, prev = some pv → pv - msPerHour ≤ f.timestamp)
    ∨ dayOfMs refDate * msPerDay + msPerDay ≤ f.timestamp := by
  have hb0 : ∀ g : BGroups, (0 : Int) ≤ todMs g := by
    intro g
    simp only [todMs]
    positivity
  cases hm : matchB line with
  | none =>
    rw [parseFix, hm] at h
    exact Except.noConfusion h
  | some g =>
    rw [parseFix_eq_of_matchB line act ph refDate prev g hm] at h
    split at h
    · exact absurd (Except.ok.inj h) (by simp)
    · have hf : f = mkFixFromGroups g act ph refDate prev := (Option.some.inj (Except.ok.inj h)).symm
      subst hf
      cases prev with
      | none =>
        left
        intro pv hpv
        exact Option.noConfusion hpv
      | some p =>
        by_cases hc : dayOfMs refDate * msPerDay + todMs g < p - msPerHour
        · right
          rw [mkFix_timestamp_some, if_pos hc]
          have := hb0 g
          omega
        · left
          intro pv hpv
          cases Option.some.inj hpv
          rw [mkFix_timestamp_some, if_neg hc]
          omega

theorem scanLines_chain (lines : List (List Char)) (md : IGCHeader) (refDate : Int)
    (la lp : Option String) (acc : List IGCFix) (md2 : IGCHeader) (tps : List IGCFix)
    (hrun : scanLines md refDate la lp acc lines = Except.ok (md2, tps))
    (hacc : List.Chain' (rolloverGap refDate) acc) :
    List.Chain' (rolloverGap refDate) tps := by
  induction lines generalizing md la lp acc with
  | nil =>
    simp only [scanLines] at hrun
    cases hrun
    exact hacc
  | cons line rest ih =>
    simp only [scanLines] at hrun
    split at hrun
    · exact ih _ _ _ _ hrun hacc
    · split at hrun
      · cases hrun
        exact hacc
      · split at hrun
        · split at hrun
          · exact Except.noConfusion hrun
          · exact ih _ _ _ _ hrun hacc
          · rename_i fix hpf
            refine ih _ _ _ _ hrun ?_
            rw [List.chain'_append]
            refine ⟨hacc, List.chain'_singleton _, ?_⟩
            intro x hx y hy
            have hy2 : y = fix := by
              simp only [List.head?_cons, Option.mem_def, Option.some.injEq] at hy
              exact hy.symm
            subst hy2
            have hx2 : acc.getLast? = some x := Option.mem_def.mp hx
            rcases parseFix_gap _ _ _ _ _ _ hpf with hg | hg
            · left
              exact hg x.timestamp (by rw [hx2]; rfl)
            · right
              exact hg
        · exact ih _ _ _ _ hrun hacc

/-- C3 (amended): the assembled timestamps are not monotonically
non-decreasing (see `c3_counterexample`); what the rollover correction
actually enforces between adjacent fixes is `rolloverGap`: the next
timestamp is at least the previous one minus one hour, or (when the
rollover fired) at least one full day past the reference date's UTC
midnight. -/
theorem c3_timestamp_gap (s : String) (now : Int) (d : IGCData)
    (h : igcParser s now = Except.ok d) :
    List.Chain' (rolloverGap ((parseMetadata ((splitLinesL s.data).take 30)).date.getD now))
      d.trackPoints := by
  simp only [igcParser] at h
  split at h
  · exact Except.noConfusion h
  · split at h
    · exact Except.noConfusion h
    · rename_i md tps hscan
      split at h
      · exact Except.noConfusion h
      · cases h
        exact scanLines_chain _ _ _ _ _ _ _ _ hscan List.chain'_nil

theorem scanLines_no_fix (lines : List (List Char)) (md : IGCHeader) (refDate : Int)
    (la lp : Option String) (acc : List IGCFix)
    (h1 : ∀ l ∈ beforeG lines, validAFix l = false)
    (h2 : ∀ l ∈ beforeG lines, l.head? = some 'B' → (matchB (String.mk l)).isSome = true) :
    ∃ md2, scanLines md refDate la lp acc lines = Except.ok (md2, acc) := by
  induction lines generalizing md la lp with
  | nil => exact ⟨md, rfl⟩
  | cons line rest ih =>
    by_cases hG : line.head? = some 'G'
    · refine ⟨{ md with security := some (String.mk line) }, ?_⟩
      simp only [scanLines]
      rw [if_neg (by rw [hG]; simp), if_pos hG]
    · have hbg : beforeG (line :: rest) = line :: beforeG rest := by
        simp [beforeG, List.takeWhile_cons, hG]
      have h1r : ∀ l ∈ beforeG rest, validAFix l = false := by
        intro l hl
        exact h1 l (by rw [hbg]; exact List.mem_cons_of_mem _ hl)
      have h2r : ∀ l ∈ beforeG rest, l.head? = some 'B' →
          (matchB (String.mk l)).isSome = true := by
        intro l hl
        exact h2 l (by rw [hbg]; exact List.mem_cons_of_mem _ hl)
      have hmem : line ∈ beforeG (line :: rest) := by
        rw [hbg]
        exact List.mem_cons_self _ _
      by_cases hH : line.head? = some 'H'
      · simp only [scanLines]
        rw [if_pos hH]
        exact ih md la lp h1r h2r
      · simp only [scanLines]
        rw [if_neg hH, if_neg hG]
        by_cases hB : line.head? = some 'B'
        · rw [if_pos hB]
          have hms : (matchB (String.mk line)).isSome = true := h2 line hmem hB
          obtain ⟨g, hg⟩ := Option.isSome_iff_exists.mp hms
          have hflag : g.flag ≠ "A" := by
            have hv := h1 line hmem
            simp only [validAFix, hg, decide_eq_false_iff_not] at hv
            exact hv
          have hpf : parseFix (String.mk line)
              (if line.head? = some 'L' ∧ containsSubL "ACTIVITY".data line
                then some (String.mk line) else la)
              (if line.head? = some 'L' ∧ ¬containsSubL "ACTIVITY".data line
                  ∧ containsSubL "PHASE".data line
                then some (String.mk line) else lp)
              refDate ((acc.getLast?).map (fun f => f.timestamp)) = Except.ok none := by
            rw [parseFix_eq_of_matchB _ _ _ _ _ g hg, if_pos hflag]
          rw [hpf]
          exact ih md _ _ h1r h2r
        · rw [if_neg hB]
          exact ih md _ _ h1r h2r

/-- C10 (amended): for every non-empty input whose lines before the first
security (`G`) line contain no structurally valid flag-`"A"` fix record
and no malformed `B`-prefixed line, `igcParser` raises the
empty-trackPoints error; and every successfully returned `IGCData` has a
non-empty `trackPoints` sequence.  The original claim, which asserted the
empty-trackPoints error without excluding malformed `B` lines, is refuted
by `c10_counterexample`. -/
theorem c10_no_valid_fix_error (s : String) (now : Int) :
    (s ≠ "" →
      (∀ l ∈ beforeG (splitLinesL s.data), validAFix l = false) →
      (∀ l ∈ beforeG (splitLinesL s.data), l.head? = some 'B' →
        (matchB (String.mk l)).isSome = true) →
      igcParser s now = Except.error "No trackPoints provided")
    ∧ (∀ d : IGCData, igcParser s now = Except.ok d → d.trackPoints ≠ []) := by
  constructor
  · intro hne h1 h2
    obtain ⟨md2, hsc⟩ := scanLines_no_fix (splitLinesL s.data)
      (parseMetadata ((splitLinesL s.data).take 30))
      ((parseMetadata ((splitLinesL s.data).take 30)).date.getD now) none none [] h1 h2
    simp only [igcParser]
    rw [if_neg hne, hsc]
    rfl
  · intro d h
    simp only [igcParser] at h
    split at h
    · exact Except.noConfusion h
    · split at h
      · exact Except.noConfusion h
      · rename_i md tps hscan
        split at h
        · exact Except.noConfusion h
        · rename_i geo hconv
          cases h
          intro hnil
          rw [show ({ metadata := md, trackPoints := tps, geoJSON := geo } : IGCData).trackPoints = tps
            from rfl] at hnil
          rw [hnil] at hconv
          exact Except.noConfusion hconv

theorem vsList_getElem? (l : List ℚ) (prev : ℚ) (j : Nat) (hj : j < l.length) :
    ∃ a b, l[j]? = some a ∧ (prev :: l)[j]? = some b ∧ (vsList prev l)[j]? = some (a - b) := by
  induction l generalizing prev j with
  | nil => simp at hj
  | cons x t ih =>
    cases j with
    | zero => exact ⟨x, prev, by simp, by simp, by simp [vsList]⟩
    | succ j2 =>
      have hj2 : j2 < t.length := by simpa using hj
      obtain ⟨a, b, hA, hB, hV⟩ := ih x j2 hj2
      refine ⟨a, b, ?_, ?_, ?_⟩
      · simpa using hA
      · simpa using hB
      · simpa [vsList] using hV

theorem vsList_offset (l : List IGCFix) (x : IGCFix) (off offp : ℚ) :
    vsList (projAlt offp x) (l.map (projAlt offp)) = vsList (projAlt off x) (l.map (projAlt off)) := by
  induction l generalizing x with
  | nil => rfl
  | cons a t ih =>
    simp only [List.map_cons, vsList]
    rw [ih a]
    congr 1
    simp only [projAlt]
    ring

/-- C7: `convertToGeoJSON` applied to an empty fix sequence fails with
the empty-input error for every altitude offset, and it never returns a
feature with an empty coordinates array. -/
theorem c7_empty_trackpoints :
    (∀ off : ℚ, convertToGeoJSON [] off = Except.error "No trackPoints provided")
    ∧ (∀ (tps : List IGCFix) (off : ℚ) (g : GeoJSONFeature),
        convertToGeoJSON tps off = Except.ok g → g.coordinates ≠ []) := by
  constructor
  · intro off
    rfl
  · intro tps off g h
    cases tps with
    | nil => exact Except.noConfusion h
    | cons f rest =>
      have hg := Except.ok.inj h
      rw [← hg]
      simp [convertToGeoJSON]

/-- C6: for every non-empty fix sequence and offsets `off`, `offp`: the
projection's vertical speed at index 0 is 0; at every index `i > 0` it
equals projected altitude`[i]` minus projected altitude`[i-1]` (third
coordinate components); and the run with offset `offp` shifts every
coordinate's altitude by the constant `offp - off` while the
vertical-speeds array is unchanged. -/
theorem c6_vertical_speeds (tps : List IGCFix) (off offp : ℚ) (i : Nat)
    (hne : tps ≠ []) (g gp : GeoJSONFeature)
    (hg : convertToGeoJSON tps off = Except.ok g)
    (hgp : convertToGeoJSON tps offp = Except.ok gp) :
    g.verticalSpeeds.head? = some 0
    ∧ (0 < i → i < tps.length →
        ∃ a b, g.coordinates[i]? = some a ∧ g.coordinates[i - 1]? = some b
          ∧ g.verticalSpeeds[i]? = some (a.2.2 - b.2.2))
    ∧ gp.verticalSpeeds = g.verticalSpeeds
    ∧ gp.coordinates = g.coordinates.map (fun c => (c.1, c.2.1, c.2.2 + (offp - off))) := by
  cases tps with
  | nil => exact absurd rfl hne
  | cons f rest =>
    have hgv : g = { coordinates := (f :: rest).map (fun p => (p.long, p.lat, projAlt off p))
                     timestamps := (f :: rest).map (fun p => p.timestamp)
                     phases := (f :: rest).map (fun p => p.phase)
                     activities := (f :: rest).map (fun p => p.activity)
                     verticalSpeeds := 0 :: vsList (projAlt off f) (rest.map (projAlt off)) } :=
      (Except.ok.inj hg).symm
    have hgpv : gp = { coordinates := (f :: rest).map (fun p => (p.long, p.lat, projAlt offp p))
                       timestamps := (f :: rest).map (fun p => p.timestamp)
                       phases := (f :: rest).map (fun p => p.phase)
                       activities := (f :: rest).map (fun p => p.activity)
                       verticalSpeeds := 0 :: vsList (projAlt offp f) (rest.map (projAlt offp)) } :=
      (Except.ok.inj hgp).symm
    subst hgv
    subst hgpv
    refine ⟨rfl, ?_, ?_, ?_⟩
    · intro hi0 hilen
      obtain ⟨j, rfl⟩ : ∃ j, i = j + 1 := ⟨i - 1, by omega⟩
      have hjlen : j < rest.length := by
        simp only [List.length_cons] at hilen
        omega
      obtain ⟨a, b, hA, hB, hV⟩ := vsList_getElem? (rest.map (projAlt off)) (projAlt off f) j
        (by simpa using hjlen)
      obtain ⟨x, hx⟩ : ∃ x, rest[j]? = some x := by
        rw [List.getElem?_eq_getElem hjlen]
        exact ⟨_, rfl⟩
      obtain ⟨y, hy⟩ : ∃ y, (f :: rest)[j]? = some y := by
        have hjl2 : j < (f :: rest).length := by
          simp only [List.length_cons]
          omega
        rw [List.getElem?_eq_getElem hjl2]
        exact ⟨_, rfl⟩
      have ha2 : a = projAlt off x := by
        have hmx : (rest.map (projAlt off))[j]? = some (projAlt off x) := by
          rw [List.getElem?_map, hx]
          rfl
        exact Option.some.inj (hA.symm.trans hmx)
      have hb2 : b = projAlt off y := by
        have hmy : ((f :: rest).map (projAlt off))[j]? = some (projAlt off y) := by
          rw [List.getElem?_map, hy]
          rfl
        rw [List.map_cons] at hmy
        exact Option.some.inj (hB.symm.trans hmy)
      refine ⟨(x.long, x.lat, projAlt off x), (y.long, y.lat, projAlt off y), ?_, ?_, ?_⟩
      · show (((f :: rest).map fun p => (p.long, p.lat, projAlt off p)))[j + 1]? =
          some (x.long, x.lat, projAlt off x)
        rw [List.map_cons, List.getElem?_cons_succ, List.getElem?_map, hx]
        rfl
      · show (((f :: rest).map fun p => (p.long, p.lat, projAlt off p)))[j + 1 - 1]? =
          some (y.long, y.lat, projAlt off y)
        rw [Nat.add_sub_cancel, List.getElem?_map, hy]
        rfl
      · show (0 :: vsList (projAlt off f) (rest.map (projAlt off)))[j + 1]? =
          some ((x.long, x.lat, projAlt off x).2.2 - (y.long, y.lat, projAlt off y).2.2)
        rw [List.getElem?_cons_succ, hV, ha2, hb2]
    · show 0 :: vsList (projAlt offp f) (rest.map (projAlt offp)) =
        0 :: vsList (projAlt off f) (rest.map (projAlt off))
      rw [vsList_offset rest f off offp]
    · show (f :: rest).map (fun p => (p.long, p.lat, projAlt offp p)) =
        ((f :: rest).map (fun p => (p.long, p.lat, projAlt off p))).map
          (fun c => (c.1, c.2.1, c.2.2 + (offp - off)))
      rw [List.map_map]
      have hfun : ((fun c : ℚ × ℚ × ℚ => (c.1, c.2.1, c.2.2 + (offp - off))) ∘
          (fun p : IGCFix => (p.long, p.lat, projAlt off p))) =
          fun p : IGCFix => (p.long, p.lat, projAlt offp p) := by
        funext p
        simp only [Function.comp, projAlt]
        norm_num
      rw [hfun]

/-- C2 counterexample: the fix line `B2500004651388N00820593EA0134501414`
matches the layout (hour group `"25"`), and with reference date 0 and
previous timestamp 90 000 000 ms (= epoch + 25 h) the rebuilt instant is
not more than one hour earlier than the previous timestamp, so the claim
as stated demands the returned date be the reference date's day (day 0) —
but the returned fix lands on day 1. -/
theorem c2_counterexample :
    ((parseFix "B2500004651388N00820593EA0134501414" none none 0 (some 90000000)).toOption.bind id).map
        (fun f => dayOfMs f.timestamp) = some 1
    ∧ ¬ ((90000000 : Int) < 90000000 - msPerHour)
    ∧ dayOfMs 0 = 0 ∧ (1 : Int) ≠ 0 := by
  refine ⟨by decide, by decide, by decide, by decide⟩

/-- Witness for C2 (amended) at the sample line with reference date 0 and
previous timestamp one day ahead: the rollover fires and the fix lands on
day 1. -/
theorem c2_day_rollover_witness :
    ((parseFix "B0844504651388N00820593EA0134501414" none none 0 (some 86400000)).toOption.bind id).map
        (fun f => dayOfMs f.timestamp) = some 1 := by
  have hm : matchB "B0844504651388N00820593EA0134501414" =
      some ⟨"08", "44", "50", "46", "51", "388", "N", "008", "20", "593", "E", "A", "01345", "01414"⟩ := rfl
  obtain ⟨f, hf, hroll, -⟩ := c2_day_rollover _ none none 0 86400000 _ hm rfl
    (by decide) (by decide) (by decide)
  obtain ⟨-, hd⟩ := hroll (by decide)
  rw [hf]
  show some (dayOfMs f.timestamp) = some 1
  rw [hd]
  decide

/-- Witness for C4: a void (`V`) line yields no fix without error, an
`A` line yields a populated fix, and a non-matching line yields the
structural parse error. -/
theorem c4_parseFix_shape_witness :
    parseFix "B0844504651388N00820593EV0134501414" none none 0 none = Except.ok none
    ∧ (parseFix "B0844504651388N00820593EA0134501414" none none 0 none).toOption.map Option.isSome
      = some true
    ∧ matchB "Bnonsense" = none
    ∧ parseFix "Bnonsense" none none 0 none = Except.error "Invalid B record" := by
  have hmV : matchB "B0844504651388N00820593EV0134501414" =
      some ⟨"08", "44", "50", "46", "51", "388", "N", "008", "20", "593", "E", "V", "01345", "01414"⟩ := rfl
  have hmA : matchB "B0844504651388N00820593EA0134501414" =
      some ⟨"08", "44", "50", "46", "51", "388", "N", "008", "20", "593", "E", "A", "01345", "01414"⟩ := rfl
  refine ⟨?_, ?_, rfl, rfl⟩
  · exact ((c4_parseFix_shape _ none none 0 none).2 _ hmV).1.mpr rfl
  · obtain ⟨f, hf⟩ := ((c4_parseFix_shape _ none none 0 none).2 _ hmA).2.mpr rfl
    rw [hf]
    rfl

/-- Witness for C5: a line with pressure-altitude group `"00000"` and GPS
group `"01414"` yields an absent pressure altitude and GPS altitude
1414. -/
theorem c5_zero_altitude_absent_witness :
    ((parseFix "B0844504651388N00820593EA0000001414" none none 0 none).toOption.bind id).map
        (fun f => (f.pressureAltitude, f.gpsAltitude)) = some (none, some 1414) := by
  have hm : matchB "B0844504651388N00820593EA0000001414" =
      some ⟨"08", "44", "50", "46", "51", "388", "N", "008", "20", "593", "E", "A", "00000", "01414"⟩ := rfl
  obtain ⟨f, hf, hp, hq⟩ := c5_zero_altitude_absent _ none none 0 none _ hm rfl
  rw [hf]
  show some (f.pressureAltitude, f.gpsAltitude) = some (none, some 1414)
  rw [hp, hq]
  decide

/-- Witness for C7 at offset 5 and at a concrete one-point track. -/
theorem c7_empty_trackpoints_witness :
    convertToGeoJSON [] 5 = Except.error "No trackPoints provided"
    ∧ (match convertToGeoJSON [demoFix] 0 with
       | Except.ok g => g.coordinates ≠ []
       | Except.error _ => False) := by
  have hg : convertToGeoJSON [demoFix] 0 =
      Except.ok ((convertToGeoJSON [demoFix] 0).toOption.get (by rfl)) := rfl
  refine ⟨c7_empty_trackpoints.1 5, ?_⟩
  rw [hg]
  exact c7_empty_trackpoints.2 [demoFix] 0 _ hg

/-- Witness for C6 on a concrete two-point track with offsets 0 and
100, at index 1. -/
theorem c6_vertical_speeds_witness :
    (match convertToGeoJSON [c6demo1, c6demo2] 0, convertToGeoJSON [c6demo1, c6demo2] 100 with
     | Except.ok g, Except.ok gp =>
        g.verticalSpeeds.head? = some 0
        ∧ (∃ a b, g.coordinates[1]? = some a ∧ g.coordinates[0]? = some b
            ∧ g.verticalSpeeds[1]? = some (a.2.2 - b.2.2))
        ∧ gp.verticalSpeeds = g.verticalSpeeds
        ∧ gp.coordinates = g.coordinates.map (fun c => (c.1, c.2.1, c.2.2 + (100 - 0)))
     | _, _ => False) := by
  have hg : convertToGeoJSON [c6demo1, c6demo2] (0 : ℚ) =
      Except.ok ((convertToGeoJSON [c6demo1, c6demo2] (0 : ℚ)).toOption.get (by rfl)) := rfl
  have hgp : convertToGeoJSON [c6demo1, c6demo2] (100 : ℚ) =
      Except.ok ((convertToGeoJSON [c6demo1, c6demo2] (100 : ℚ)).toOption.get (by rfl)) := rfl
  rw [hg, hgp]
  obtain ⟨h1, h2, h3, h4⟩ := c6_vertical_speeds [c6demo1, c6demo2] 0 100 1 (by simp) _ _ hg hgp
  exact ⟨h1, h2 (by decide) (by decide), h3, h4⟩

theorem strToNat_foldl (l : List Char) (init : Nat) :
    l.foldl (fun a c => a * 10 + (c.toNat - 48)) init = init * 10 ^ l.length + strToNat l := by
  induction l generalizing init with
  | nil => simp [strToNat]
  | cons c t ih =>
    simp only [List.foldl_cons, strToNat, List.length_cons]
    rw [ih (init * 10 + (c.toNat - 48)), ih (0 * 10 + (c.toNat - 48))]
    ring

theorem strToNat_append (a b : List Char) :
    strToNat (a ++ b) = strToNat a * 10 ^ b.length + strToNat b := by
  rw [show strToNat (a ++ b) = b.foldl (fun x c => x * 10 + (c.toNat - 48)) (strToNat a) from by
    rw [strToNat, List.foldl_append]
    rfl]
  exact strToNat_foldl b (strToNat a)

/-- C8: the header line `HFDTE240624` sets the metadata date to UTC
2024-06-24 (`Date.UTC(2024, 5, 24)` = 1 719 187 200 000 ms); in general
the `HFDTE` branch gives a 2-digit year group century "20" (year
`2000 + value`) and any other (3-digit) year group century "19" (year
`19000 + value`, the century string prepended textually before
`parseInt`). -/
theorem c8_hfdte_date :
    (parseMetadata ["HFDTE240624".data]).date = some 1719187200000
    ∧ dateUTCms 2024 5 24 = 1719187200000
    ∧ (∀ d m y : List Char, y.length = 2 →
        hfdteDate d m y =
          dateUTCms (2000 + (strToNat y : Int)) ((strToNat m : Int) - 1) (strToNat d))
    ∧ (∀ d m y : List Char, y.length = 3 →
        hfdteDate d m y =
          dateUTCms (19000 + (strToNat y : Int)) ((strToNat m : Int) - 1) (strToNat d)) := by
  refine ⟨?_, by decide, ?_, ?_⟩
  · have hfd : findDate "HFDTE240624".data = some ("24".data, "06".data, "24".data) := by decide
    have hval : hfdteDate "24".data "06".data "24".data = 1719187200000 := by decide
    show (List.foldl parseMetaLine {} ["HFDTE240624".data]).date = some 1719187200000
    rw [List.foldl_cons, List.foldl_nil]
    simp only [parseMetaLine]
    rw [if_pos (by decide : "HFDTE240624".data.head? = some 'H'
        ∨ "HFDTE240624".data.head? = some 'A')]
    rw [if_pos (by decide : "HFDTE240624".data.take 5 = "HFDTE".data)]
    rw [hfd]
    show some (hfdteDate "24".data "06".data "24".data) = some 1719187200000
    rw [hval]
  · intro d m y hy
    have hcent : strToNat ("20".data ++ y) = 2000 + strToNat y := by
      rw [strToNat_append, hy, show strToNat "20".data = 20 from by decide]
      norm_num
    simp only [hfdteDate]
    rw [if_pos hy, hcent]
    push_cast
    rfl
  · intro d m y hy
    have hcent : strToNat ("19".data ++ y) = 19000 + strToNat y := by
      rw [strToNat_append, hy, show strToNat "19".data = 19 from by decide]
      norm_num
    simp only [hfdteDate]
    rw [if_neg (by omega : ¬ (y.length = 2)), hcent]
    push_cast
    rfl


/-- Witness for C8 at concrete year groups `"24"` (2 digits → year 2024)
and `"624"` (3 digits → year 19624). -/
theorem c8_hfdte_date_witness :
    hfdteDate "24".data "06".data "24".data = dateUTCms 2024 5 24
    ∧ hfdteDate "24".data "06".data "624".data = dateUTCms 19624 5 24 := by
  constructor
  · have h := c8_hfdte_date.2.2.1 "24".data "06".data "24".data (by decide)
    rw [h]
    norm_num [show strToNat "24".data = 24 from by decide,
      show strToNat "06".data = 6 from by decide]
  · have h := c8_hfdte_date.2.2.2 "24".data "06".data "624".data (by decide)
    rw [h]
    norm_num [show strToNat "624".data = 624 from by decide,
      show strToNat "06".data = 6 from by decide,
      show strToNat "24".data = 24 from by decide]

/-- C1: the fix line `B0844504651388N00820593EA0134501414` with activity
`"fly"` and phase `"onGround"` decodes, for every reference date, to a fix
timestamped 08:44:50 UTC (31 490 000 ms) on the reference date's calendar
day, latitude ≈ 46.856467 and longitude ≈ 8.343217 (both within 1e-5),
pressure altitude 1345, GPS altitude 1414, and the given activity/phase
markers. -/
theorem c1_parseFix_sample (d : Int) :
    ∃ f, parseFix "B0844504651388N00820593EA0134501414" (some "fly") (some "onGround") d none =
        Except.ok (some f)
      ∧ f.timestamp = dayOfMs d * msPerDay + 31490000
      ∧ |f.lat - 46856467 / 1000000| < 1 / 100000
      ∧ |f.long - 8343217 / 1000000| < 1 / 100000
      ∧ f.pressureAltitude = some 1345
      ∧ f.gpsAltitude = some 1414
      ∧ f.activity = some "fly"
      ∧ f.phase = some "onGround" := by
  have h : parseFix "B0844504651388N00820593EA0134501414" (some "fly") (some "onGround") d none =
      Except.ok (some
        { timestamp := dayOfMs d * msPerDay + 31490000
          lat := parseLatitude "46" "51" "388" "N"
          long := parseLongitude "008" "20" "593" "E"
          pressureAltitude := some 1345
          gpsAltitude := some 1414
          activity := some "fly"
          phase := some "onGround" }) := rfl
  refine ⟨_, h, rfl, ?_, ?_, rfl, rfl, rfl, rfl⟩
  · show |parseLatitude "46" "51" "388" "N" - 46856467 / 1000000| < 1 / 100000
    have e1 : strToNat "46".data = 46 := by decide
    have e2 : strToNat "51".data = 51 := by decide
    have e3 : strToNat "388".data = 388 := by decide
    have e4 : ("388".data).length = 3 := by decide
    have hNS : ¬ (("N" : String) = "S") := by decide
    simp only [parseLatitude, e1, e2, e3, e4, if_neg hNS]
    rw [abs_lt]
    constructor <;> norm_num
  · show |parseLongitude "008" "20" "593" "E" - 8343217 / 1000000| < 1 / 100000
    have e1 : strToNat "008".data = 8 := by decide
    have e2 : strToNat "20".data = 20 := by decide
    have e3 : strToNat "593".data = 593 := by decide
    have e4 : ("593".data).length = 3 := by decide
    have hEW : ¬ (("E" : String) = "W") := by decide
    simp only [parseLongitude, e1, e2, e3, e4, if_neg hEW]
    rw [abs_lt]
    constructor <;> norm_num

/-- C9 (code-bug evidence): on the well-formed header line `HFFXA035` the
decoder assigns `NaN` (modelled `some none`) to `fixAccuracy`, not the
leading digit run 35: the source regex `/\d*/` always matches the empty
string at position 0 and has no capture group, so `recordData[1]` is
`undefined` and `parseInt(undefined)` is `NaN`. -/
theorem c9_hffxa_nan :
    (parseMetadata ["HFFXA035".data]).fixAccuracy = some none
    ∧ (parseMetadata ["HFFXA035".data]).fixAccuracy ≠ some (some 35) := by
  constructor
  · rfl
  · intro h
    exact Option.noConfusion (Option.some.inj h)

/-- C3 counterexample: two fix lines at 10:00:00 and 09:30:00 (reference
day 0) assemble to timestamps 36 000 000 then 34 200 000 ms — the
30-minute backward step is below the one-hour rollover threshold, so the
assembled sequence decreases. -/
theorem c3_counterexample :
    (igcParser "B1000004651388N00820593EA0134501414\nB0930004651388N00820593EA0134501414" 0).toOption.map
        (fun d => d.trackPoints.map (fun f => f.timestamp)) = some [36000000, 34200000]
    ∧ ¬ ((36000000 : Int) ≤ 34200000) := by
  exact ⟨by decide, by decide⟩

/-- Witness for C3 (amended) on a one-fix input. -/
theorem c3_timestamp_gap_witness :
    (match igcParser "B1000004651388N00820593EA0134501414" 0 with
     | Except.ok d => List.Chain' (rolloverGap ((parseMetadata ((splitLinesL
         "B1000004651388N00820593EA0134501414".data).take 30)).date.getD 0)) d.trackPoints
     | Except.error _ => False) := by
  have hg : igcParser "B1000004651388N00820593EA0134501414" 0 =
      Except.ok ((igcParser "B1000004651388N00820593EA0134501414" 0).toOption.get (by decide)) := by
    rfl
  rw [hg]
  exact c3_timestamp_gap _ 0 _ hg

/-- C10 counterexample: the input `Bnonsense` contains no structurally
valid flag-`"A"` fix before any `G` line, yet `igcParser` raises the
structural `"Invalid B record"` error, not the empty-trackPoints error the
claim demands. -/
theorem c10_counterexample :
    igcParser "Bnonsense" 0 = Except.error "Invalid B record"
    ∧ (∀ l ∈ beforeG (splitLinesL "Bnonsense".data), validAFix l = false)
    ∧ "Invalid B record" ≠ "No trackPoints provided" := by
  refine ⟨rfl, by decide, by decide⟩

/-- Witness for C10 (amended): a lone void-flag fix line yields the
empty-trackPoints error, and a lone valid fix line yields a non-empty
track. -/
theorem c10_no_valid_fix_error_witness :
    igcParser "B0844504651388N00820593EV0134501414" 0 = Except.error "No trackPoints provided"
    ∧ (match igcParser "B0844504651388N00820593EA0134501414" 0 with
       | Except.ok d => d.trackPoints ≠ []
       | Except.error _ => False) := by
  constructor
  · exact (c10_no_valid_fix_error _ 0).1 (by decide) (by decide) (by decide)
  · have hg : igcParser "B0844504651388N00820593EA0134501414" 0 =
        Except.ok ((igcParser "B0844504651388N00820593EA0134501414" 0).toOption.get (by decide)) := by
      rfl
    rw [hg]
    exact (c10_no_valid_fix_error _ 0).2 _ hg
